import Mathlib

/-!
Verification of the pluggable TCP congestion-control strategy engine
(BIC, CUBIC and Vegas-style delay-based control) of this repository.

The C++ sources are shallowly embedded: every `uint32_t` quantity is a
`Nat`, and each arithmetic operation that the C++ code performs on
32-bit unsigned integers is wrapped explicitly with `w32`
(reduction modulo 2^32) respectively `sub32` (wrapping subtraction).
Casts to `int32_t` are modelled by `toInt32`.

The C++ code computes the multiplicative-decrease thresholds through
`double` arithmetic (`static_cast<uint32_t>(cwnd * 0.8)` and similar).
For every 32-bit value `c` these expressions agree with the exact
rational floors `4*c/5`, `7*c/10` and `13*c/20`:
the IEEE-754 doubles nearest to 0.8, 0.7 and 0.65 are
`4/5 + 1/(5*2^52)`, `7/10 - 1/(5*2^52)` and `13/20 + 1/(5*2^53)`,
so the exact product differs from the rational multiple by less than
`2^32/(5*2^52) < 2*10^-7`, which is below half an ulp at every
magnitude reachable from a 32-bit `c` (half an ulp is at least
`x * 2^-53`, and `1/5 * 2^-52 * c < 0.65 * c * 2^-53`); hence the
rounded product truncates to the same integer as the exact rational
product does.  The embedding therefore uses the exact Nat divisions.

Wall-clock timestamps (`std::chrono::steady_clock::now()`) are external
inputs of the code; events carry the current monotonic time `now` as a
natural number, and epoch timestamps are stored as such.
-/

namespace CongCtrl

/-- 2^32, the modulus of `uint32_t` arithmetic. -/
def u32 : Nat := 4294967296

/-- Reduction of a natural number to a 32-bit unsigned value. -/
def w32 (n : Nat) : Nat := n % u32

/-- Wrapping 32-bit unsigned subtraction, as performed by C++ on `uint32_t`. -/
def sub32 (a b : Nat) : Nat := (a % u32 + (u32 - b % u32)) % u32

/-- Reinterpretation of a 32-bit unsigned value as `int32_t`
(two's complement), as performed by `static_cast<int32_t>`. -/
def toInt32 (n : Nat) : Int :=
  if n % u32 < 2147483648 then ((n % u32 : Nat) : Int)
  else ((n % u32 : Nat) : Int) - ((u32 : Nat) : Int)

/-- TCP phases used by the engine (`TCPState` in the C++ code; the header is
not in the repository, the constants used by the sources are `Recovery`,
`Loss` and `CWR`, and the spec lists `SlowStart` and `CongestionAvoidance`
as the remaining phases). -/
inductive TCPState where
  | SlowStart
  | CongestionAvoidance
  | Recovery
  | Loss
  | CWR
deriving Repr, DecidableEq

/-- Congestion events dispatched to `CwndEvent` (`CongestionEvent` in the
C++ code); `NoEvent` stands for the values reaching the `default` branch. -/
inductive CongestionEvent where
  | PacketLoss
  | Timeout
  | ECN
  | FastRecovery
  | NoEvent
deriving Repr, DecidableEq

/-- The per-connection socket record (`SocketState` in the C++ code: fields
`cwnd_`, `ssthresh_`, `mss_bytes_`, `tcp_state_`, `rtt_us_`, `rtt_var_`,
`rto_us_`, `congestion_event_`). -/
structure SocketState where
  cwnd : Nat
  ssthresh : Nat
  mss : Nat
  tcpState : TCPState
  rttUs : Nat
  rttVar : Nat
  rtoUs : Nat
  congEvent : CongestionEvent
deriving Repr, DecidableEq

/-- Private persistent state of the BIC strategy (the `m_*` members of
class `BIC`; `m_beta` is the constant 0.8, folded into the exact
arithmetic of `bicGetSsThresh`, and `m_epochStart` is a monotonic
timestamp). -/
structure BicState where
  ssthresh : Nat
  cwnd : Nat
  maxCwnd : Nat
  lastMaxCwnd : Nat
  lastCwnd : Nat
  minWin : Nat
  maxIncr : Nat
  minIncr : Nat
  lowWindow : Nat
  smoothPart : Nat
  foundNewMax : Bool
  ackCount : Nat
  epochStart : Nat
deriving Repr, DecidableEq

/-- The BIC default constructor (`BIC::BIC`), started at monotonic time 0. -/
def bicInitState : BicState :=
  { ssthresh := 0x7fffffff
    cwnd := 0
    maxCwnd := 65535
    lastMaxCwnd := 0
    lastCwnd := 0
    minWin := 0
    maxIncr := 32
    minIncr := 1
    lowWindow := 14
    smoothPart := 0
    foundNewMax := false
    ackCount := 0
    epochStart := 0 }

/-- `BIC::GetSsThresh`: records the current window in `m_lastMaxCwnd`,
sets `ssthresh = max(cwnd * 0.8, 2*mss)` (the double product truncates to
`4*cwnd/5` exactly, see file header) and writes it back to the socket. -/
def bicGetSsThresh (sock : SocketState) (st : BicState) : SocketState × BicState :=
  let st := { st with lastMaxCwnd := sock.cwnd }
  let st := { st with ssthresh := max (4 * sock.cwnd / 5) (w32 (2 * sock.mss)) }
  ({ sock with ssthresh := st.ssthresh }, st)

/-- `BIC::SlowStart`: exponential growth, clamped at `ssthresh` and
`m_maxCwnd`; returns the new window. -/
def bicSlowStart (sock : SocketState) (st : BicState) (segmentsAcked : Nat) : Nat :=
  if segmentsAcked = 0 then st.cwnd
  else
    let newCwnd := w32 (st.cwnd + w32 (segmentsAcked * sock.mss))
    let newCwnd := if newCwnd > st.ssthresh then st.ssthresh else newCwnd
    min newCwnd st.maxCwnd

/-- `BIC::FastRecovery`: window inflation during recovery; returns the new
window. -/
def bicFastRecovery (sock : SocketState) (st : BicState) (segmentsAcked : Nat) : Nat :=
  min (w32 (st.cwnd + w32 (segmentsAcked * sock.mss))) st.maxCwnd

/-- `BIC::BicUpdate`: the binary-search window update.  `dist` is computed
with the C++ `uint32_t` subtraction and division and then cast to
`int32_t`.  Updates `m_cwnd`, `m_ackCount`, `m_foundNewMax` and
`m_lastMaxCwnd`, and finally floors the window at `m_minWin`. -/
def bicUpdate (sock : SocketState) (st : BicState) : BicState :=
  let mss := sock.mss
  let st := { st with ackCount := w32 (st.ackCount + 1) }
  let targetWin :=
    if st.foundNewMax = false ∨ st.lastMaxCwnd = 0 then w32 (st.cwnd + w32 (st.maxIncr * mss))
    else st.lastMaxCwnd
  let dist : Int := toInt32 (sub32 targetWin st.cwnd / mss)
  let st : BicState :=
    if dist > toInt32 st.maxIncr then
      { st with cwnd := w32 (st.cwnd + w32 (st.maxIncr * mss)) }
    else if dist > 0 then
      let increment :=
        if dist > toInt32 st.minIncr then
          let inc := w32 (dist.toNat / 2 * mss)
          if inc < w32 (st.minIncr * mss) then w32 (st.minIncr * mss) else inc
        else w32 (st.minIncr * mss)
      { st with cwnd := w32 (st.cwnd + increment) }
    else
      let st :=
        if st.foundNewMax = false then { st with foundNewMax := true, lastMaxCwnd := st.cwnd }
        else st
      if st.cwnd < w32 (st.lastMaxCwnd + w32 (st.maxIncr * mss)) then
        { st with cwnd := w32 (st.cwnd + w32 (st.minIncr * mss)) }
      else
        let c := w32 (st.cwnd + w32 (st.maxIncr * mss))
        { st with cwnd := c, lastMaxCwnd := c }
  if st.cwnd < st.minWin then { st with cwnd := st.minWin } else st

/-- `BIC::IncreaseWindow`: a no-op for `segmentsAcked == 0`; otherwise
synchronizes the member copies from the socket, applies the phase-specific
growth rule (`FastRecovery`, `SlowStart` or `CongestionAvoidance`, the
latter calling `BicUpdate`), clamps at `m_maxCwnd` and writes the window
back to the socket. -/
def bicIncreaseWindow (sock : SocketState) (st : BicState) (segmentsAcked : Nat) :
    SocketState × BicState :=
  if segmentsAcked = 0 then (sock, st)
  else
    let st := { st with cwnd := sock.cwnd, ssthresh := sock.ssthresh }
    let st :=
      if sock.tcpState = TCPState.Recovery then
        { st with cwnd := bicFastRecovery sock st segmentsAcked }
      else if st.cwnd < st.ssthresh then
        { st with cwnd := bicSlowStart sock st segmentsAcked }
      else
        bicUpdate sock st
    let st := { st with cwnd := min st.cwnd st.maxCwnd }
    ({ sock with cwnd := st.cwnd }, st)

/-- `BIC::PktsAcked`: RTT bookkeeping (`rtt` is the `uint64_t` sample) and
ACK counting. -/
def bicPktsAcked (sock : SocketState) (st : BicState) (segmentsAcked rtt : Nat) :
    SocketState × BicState :=
  let sock := { sock with rttUs := w32 rtt }
  let sock :=
    { sock with rttVar := if sock.rttVar = 0 then w32 (rtt / 2)
                          else w32 ((3 * sock.rttVar + rtt) / 4) }
  let sock := { sock with rtoUs := w32 (sock.rttUs + w32 (4 * sock.rttVar)) }
  (sock, { st with ackCount := w32 (st.ackCount + segmentsAcked) })

/-- `BIC::BicReset`: clears all persistent strategy memory and restarts the
epoch at the current monotonic time. -/
def bicReset (st : BicState) (now : Nat) : BicState :=
  { st with lastMaxCwnd := 0, lastCwnd := 0, minWin := 0, foundNewMax := false,
            ackCount := 0, smoothPart := 0, epochStart := now }

/-- `BIC::CwndEvent`: loss/timeout/ECN handling.  `now` is the monotonic
time at which the event is dispatched. -/
def bicCwndEvent (sock : SocketState) (st : BicState) (ev : CongestionEvent) (now : Nat) :
    SocketState × BicState :=
  let sock := { sock with congEvent := ev }
  match ev with
  | CongestionEvent.PacketLoss | CongestionEvent.Timeout =>
    let st := if sock.cwnd > st.lastMaxCwnd then { st with lastMaxCwnd := sock.cwnd } else st
    let p := bicGetSsThresh sock st
    let sock := p.1
    let st := { p.2 with minWin := p.2.ssthresh, foundNewMax := false }
    let p :=
      if ev = CongestionEvent.Timeout then
        let st := { st with cwnd := sock.mss }
        ({ sock with cwnd := st.cwnd, tcpState := TCPState.Loss }, bicReset st now)
      else
        let st := { st with cwnd := st.ssthresh }
        ({ sock with cwnd := st.cwnd, tcpState := TCPState.Recovery }, st)
    (p.1, { p.2 with epochStart := now, ackCount := 0 })
  | CongestionEvent.ECN =>
    let p := bicGetSsThresh sock st
    let sock := p.1
    let st := { p.2 with cwnd := p.2.ssthresh }
    let sock := { sock with cwnd := st.cwnd, tcpState := TCPState.CWR }
    (sock, { st with minWin := st.ssthresh, foundNewMax := false })
  | CongestionEvent.FastRecovery =>
    ({ sock with tcpState := TCPState.Recovery }, st)
  | CongestionEvent.NoEvent => (sock, st)

/-- Private persistent state of the CUBIC strategy (the `m_*` members of
class `Cubic`).  `m_cubicBeta` (0.7) and `m_cubicC` (0.4) are constants
folded into the exact arithmetic; the `double` member `m_k`, which is
only written by `CalculateK` and only read by `CubicWindowCalculation`,
is modelled separately over the reals (`cubicCalculateK` below).
`m_lastTime` holds the elapsed epoch time; the code stores it in seconds
as a `double`, the embedding keeps the exact millisecond count. -/
structure CubicState where
  ssthresh : Nat
  cwnd : Nat
  maxCwnd : Nat
  lastMaxCwnd : Nat
  lastCwnd : Nat
  fastConvergence : Bool
  tcpFriendly : Bool
  tcpCwnd : Nat
  lastTime : Nat
  ackCount : Nat
  cntRtt : Nat
  delayMin : Nat
  hystartEnabled : Bool
  hystartAckDelta : Nat
  hystartDelayMin : Nat
  hystartDelayMax : Nat
  epochStart : Nat
deriving Repr, DecidableEq

/-- The CUBIC default constructor (`Cubic::Cubic`), started at monotonic
time 0. -/
def cubicInitState : CubicState :=
  { ssthresh := 0x7fffffff
    cwnd := 0
    maxCwnd := 65535
    lastMaxCwnd := 0
    lastCwnd := 0
    fastConvergence := true
    tcpFriendly := true
    tcpCwnd := 0
    lastTime := 0
    ackCount := 0
    cntRtt := 0
    delayMin := 0xFFFFFFFF
    hystartEnabled := true
    hystartAckDelta := 2
    hystartDelayMin := 0xFFFFFFFF
    hystartDelayMax := 0
    epochStart := 0 }

/-- `Cubic::GetSsThresh`: fast convergence shrinks the remembered maximum
to `cwnd * (2 - 0.7) / 2` (the double product truncates to `13*cwnd/20`
exactly, see file header) when the window dropped before reaching it,
otherwise the remembered maximum becomes the current window; then
`ssthresh = max(cwnd * 0.7, 2*mss)` (exactly `7*cwnd/10`).  The call to
`CalculateK` only writes the real-valued `m_k` and is modelled by
`cubicCalculateK`. -/
def cubicGetSsThresh (sock : SocketState) (st : CubicState) : SocketState × CubicState :=
  let st := { st with lastCwnd := sock.cwnd }
  let st :=
    if st.fastConvergence ∧ sock.cwnd < st.lastMaxCwnd then
      { st with lastMaxCwnd := 13 * sock.cwnd / 20 }
    else
      { st with lastMaxCwnd := sock.cwnd }
  let st := { st with ssthresh := max (7 * sock.cwnd / 10) (w32 (2 * sock.mss)) }
  ({ sock with ssthresh := st.ssthresh }, st)

/-- `Cubic::SlowStart`: exponential growth with Hystart bookkeeping reset
when the window is clamped at `ssthresh`.  Returns the new window and the
updated strategy state. -/
def cubicSlowStart (sock : SocketState) (st : CubicState) (segmentsAcked : Nat) :
    Nat × CubicState :=
  if segmentsAcked = 0 then (st.cwnd, st)
  else
    let newCwnd := w32 (st.cwnd + w32 (segmentsAcked * sock.mss))
    let p : Nat × CubicState :=
      if newCwnd > st.ssthresh then
        (st.ssthresh, { st with hystartDelayMin := 0xFFFFFFFF, hystartDelayMax := 0 })
      else (newCwnd, st)
    (min p.1 st.maxCwnd, p.2)

/-- `Cubic::FastRecovery`: window inflation during recovery. -/
def cubicFastRecovery (sock : SocketState) (st : CubicState) (segmentsAcked : Nat) : Nat :=
  min (w32 (st.cwnd + w32 (segmentsAcked * sock.mss))) st.maxCwnd

/-- `Cubic::CubicUpdate`: the cubic window update.  The code computes the
target window from the wall clock and `double` state
(`CubicWindowCalculation(t)` and the TCP-friendly estimate); both are
time- and floating-point-dependent inputs of the step, so they enter the
embedding as the parameters `cubicTargetIn` and `tcpWIn`, and the update
logic downstream of them is embedded faithfully; every theorem below
quantifies over all their values.  `now` is the monotonic clock sample;
the elapsed epoch time is `now - epochStart`. -/
def cubicUpdate (sock : SocketState) (st : CubicState) (now cubicTargetIn tcpWIn : Nat) :
    CubicState :=
  let st := { st with ackCount := w32 (st.ackCount + 1) }
  let cubicTarget := cubicTargetIn
  let p : CubicState × Nat :=
    if st.tcpFriendly ∧ 0 < sock.rttUs then
      let st := if st.tcpCwnd = 0 then { st with tcpCwnd := st.cwnd } else st
      let st := { st with tcpCwnd := tcpWIn }
      (st, if tcpWIn > cubicTarget then tcpWIn else cubicTarget)
    else (st, cubicTarget)
  let st := p.1
  let cubicTarget := p.2
  let st : CubicState :=
    if cubicTarget > st.cwnd then
      let delta := cubicTarget - st.cwnd
      let cnt := st.cwnd / delta
      let cnt := if cnt = 0 then 1 else cnt
      if st.ackCount ≥ cnt then { st with cwnd := w32 (st.cwnd + sock.mss), ackCount := 0 }
      else st
    else
      if st.ackCount ≥ st.cwnd / sock.mss then
        { st with cwnd := w32 (st.cwnd + sock.mss), ackCount := 0 }
      else st
  { st with lastTime := now - st.epochStart }

/-- `Cubic::IncreaseWindow`: a no-op for `segmentsAcked == 0`; otherwise
synchronizes the member copies, applies the phase-specific growth rule
and clamps at `m_maxCwnd`. -/
def cubicIncreaseWindow (sock : SocketState) (st : CubicState)
    (segmentsAcked now cubicTargetIn tcpWIn : Nat) : SocketState × CubicState :=
  if segmentsAcked = 0 then (sock, st)
  else
    let st := { st with cwnd := sock.cwnd, ssthresh := sock.ssthresh }
    let st : CubicState :=
      if sock.tcpState = TCPState.Recovery then
        { st with cwnd := cubicFastRecovery sock st segmentsAcked }
      else if st.cwnd < st.ssthresh then
        let p := cubicSlowStart sock st segmentsAcked
        { p.2 with cwnd := p.1 }
      else
        cubicUpdate sock st now cubicTargetIn tcpWIn
    let st := { st with cwnd := min st.cwnd st.maxCwnd }
    ({ sock with cwnd := st.cwnd }, st)

/-- `Cubic::PktsAcked`: RTT bookkeeping, minimum-delay tracking and the
Hystart early exit from slow start (which copies the member `m_cwnd` into
both `m_ssthresh` and the socket's `ssthresh_`). -/
def cubicPktsAcked (sock : SocketState) (st : CubicState) (segmentsAcked rtt : Nat) :
    SocketState × CubicState :=
  let sock := { sock with rttUs := w32 rtt }
  let sock :=
    { sock with rttVar := if sock.rttVar = 0 then w32 (rtt / 2)
                          else w32 ((3 * sock.rttVar + rtt) / 4) }
  let sock := { sock with rtoUs := w32 (sock.rttUs + w32 (4 * sock.rttVar)) }
  let st := if 0 < rtt ∧ rtt < st.delayMin then { st with delayMin := w32 rtt } else st
  let p : SocketState × CubicState :=
    if st.hystartEnabled ∧ st.cwnd < st.ssthresh then
      let st := if rtt < st.hystartDelayMin then { st with hystartDelayMin := w32 rtt } else st
      let st := if rtt > st.hystartDelayMax then { st with hystartDelayMax := w32 rtt } else st
      if sub32 st.hystartDelayMax st.hystartDelayMin > st.hystartAckDelta then
        let st := { st with ssthresh := st.cwnd }
        ({ sock with ssthresh := st.ssthresh }, st)
      else (sock, st)
    else (sock, st)
  (p.1, { p.2 with ackCount := w32 (p.2.ackCount + segmentsAcked),
                   cntRtt := w32 (p.2.cntRtt + 1) })

/-- `Cubic::CubicReset`: clears all persistent strategy memory (including
the real-valued `m_k`, which is set to 0) and restarts the epoch. -/
def cubicReset (st : CubicState) (now : Nat) : CubicState :=
  { st with lastMaxCwnd := 0, lastCwnd := 0, ackCount := 0, cntRtt := 0,
            lastTime := 0, tcpCwnd := 0, delayMin := 0xFFFFFFFF,
            hystartDelayMin := 0xFFFFFFFF, hystartDelayMax := 0, epochStart := now }

/-- `Cubic::CwndEvent`: loss/timeout/ECN handling. -/
def cubicCwndEvent (sock : SocketState) (st : CubicState) (ev : CongestionEvent) (now : Nat) :
    SocketState × CubicState :=
  let sock := { sock with congEvent := ev }
  match ev with
  | CongestionEvent.PacketLoss | CongestionEvent.Timeout =>
    let p := cubicGetSsThresh sock st
    let sock := p.1
    let st := p.2
    let p :=
      if ev = CongestionEvent.Timeout then
        let st := { st with cwnd := sock.mss }
        ({ sock with cwnd := st.cwnd, tcpState := TCPState.Loss }, cubicReset st now)
      else
        let st := { st with cwnd := st.ssthresh }
        ({ sock with cwnd := st.cwnd, tcpState := TCPState.Recovery }, st)
    (p.1, { p.2 with epochStart := now, lastTime := 0, ackCount := 0, tcpCwnd := 0,
                     hystartDelayMin := 0xFFFFFFFF, hystartDelayMax := 0 })
  | CongestionEvent.ECN =>
    let p := cubicGetSsThresh sock st
    let sock := p.1
    let st := { p.2 with cwnd := p.2.ssthresh }
    let sock := { sock with cwnd := st.cwnd, tcpState := TCPState.CWR }
    (sock, { st with epochStart := now, lastTime := 0 })
  | CongestionEvent.FastRecovery =>
    ({ sock with tcpState := TCPState.Recovery }, st)
  | CongestionEvent.NoEvent => (sock, st)

/-- Private state of the Vegas strategy as used by the code excerpts in the
repository (`m_cwnd`, `m_baseRTT`, `m_currentRTT`, `m_alpha`, `m_beta`).
The field declarations themselves are not in the repository; the RTT
fields hold the raw sample values used by `CalculateDiff`. -/
structure VegasState where
  cwnd : Nat
  baseRTT : Nat
  currentRTT : Nat
  alpha : Nat
  beta : Nat
deriving Repr, DecidableEq

/-- `Vegas::CalculateDiff`, from the excerpt in the repository:
`rttDiff = currentRTT - baseRTT`, `cwndSegments = cwnd / 1460`,
`diff = cwndSegments * rttDiff / baseRTT` (in segments).  The excerpt
elides its boundary checks and the repository does not declare the RTT
field types; the arithmetic is modelled over `Int` with C-style truncated
division, which agrees with the C++ computation whenever
`currentRTT ≥ baseRTT` (the spec presents exactly this formula,
`diff = cwnd_segments * (currentRTT - baseRTT) / baseRTT`). -/
def vegasCalculateDiff (st : VegasState) : Int :=
  let rttDiff : Int := (st.currentRTT : Int) - (st.baseRTT : Int)
  let cwndSegments : Nat := st.cwnd / 1460
  Int.tdiv ((cwndSegments : Int) * rttDiff) (st.baseRTT : Int)

/-- The congestion-avoidance step of `VegasUpdate`, from the excerpt in the
repository: `diff < alpha` increases the window by one MSS, `diff > beta`
decreases it by one MSS (wrapping `uint32_t` arithmetic), otherwise the
window is kept. -/
def vegasUpdate (st : VegasState) (mss : Nat) : VegasState :=
  let diff := vegasCalculateDiff st
  if diff < toInt32 st.alpha then { st with cwnd := w32 (st.cwnd + mss) }
  else if diff > toInt32 st.beta then { st with cwnd := sub32 st.cwnd mss }
  else st

/-- External events delivered to the engine (spec section 6:
`OnAcked(segmentsAcked, rttSample?)`, `OnLoss`, `OnTimeout`, `OnECN`).
Every event carries the monotonic clock value `now`; an `Acked` event
additionally carries the two floating-point/time-dependent inputs of
`Cubic::CubicUpdate` (see `cubicUpdate`), ignored by BIC. -/
inductive Event where
  | Acked (segmentsAcked rtt now cubicTargetIn tcpWIn : Nat)
  | PacketLoss (now : Nat)
  | Timeout (now : Nat)
  | ECNSignaled (now : Nat)
deriving Repr, DecidableEq

/-- Event dispatch for a BIC-controlled connection.  Modelled from the
spec: `OnAcked` delivers the RTT sample to `PktsAcked` (when present,
i.e. positive, as in `BIC::CongControl`) and then lets the strategy grow
the window via `IncreaseWindow`; loss, timeout and ECN notifications go
to `CwndEvent`. -/
def bicOnEvent (c : SocketState × BicState) (e : Event) : SocketState × BicState :=
  match e with
  | Event.Acked seg rtt _ _ _ =>
    let c := if 0 < rtt then bicPktsAcked c.1 c.2 seg rtt else c
    bicIncreaseWindow c.1 c.2 seg
  | Event.PacketLoss now => bicCwndEvent c.1 c.2 CongestionEvent.PacketLoss now
  | Event.Timeout now => bicCwndEvent c.1 c.2 CongestionEvent.Timeout now
  | Event.ECNSignaled now => bicCwndEvent c.1 c.2 CongestionEvent.ECN now

/-- Event dispatch for a CUBIC-controlled connection (see `bicOnEvent`). -/
def cubicOnEvent (c : SocketState × CubicState) (e : Event) : SocketState × CubicState :=
  match e with
  | Event.Acked seg rtt now tgt tcpW =>
    let c := if 0 < rtt then cubicPktsAcked c.1 c.2 seg rtt else c
    cubicIncreaseWindow c.1 c.2 seg now tgt tcpW
  | Event.PacketLoss now => cubicCwndEvent c.1 c.2 CongestionEvent.PacketLoss now
  | Event.Timeout now => cubicCwndEvent c.1 c.2 CongestionEvent.Timeout now
  | Event.ECNSignaled now => cubicCwndEvent c.1 c.2 CongestionEvent.ECN now

/-- `Initialize(mss, initialCwnd)` (spec section 6): the connection record
at establishment; the socket's slow-start threshold starts "very large"
(the strategies initialize theirs to `0x7fffffff`), the phase is
`SlowStart`, no event seen yet. -/
def initSocket (mss initialCwnd : Nat) : SocketState :=
  { cwnd := initialCwnd
    ssthresh := 0x7fffffff
    mss := mss
    tcpState := TCPState.SlowStart
    rttUs := 0
    rttVar := 0
    rtoUs := 0
    congEvent := CongestionEvent.NoEvent }

/-- A freshly initialized BIC connection. -/
def bicInitConn (mss initialCwnd : Nat) : SocketState × BicState :=
  (initSocket mss initialCwnd, bicInitState)

/-- A freshly initialized CUBIC connection. -/
def cubicInitConn (mss initialCwnd : Nat) : SocketState × CubicState :=
  (initSocket mss initialCwnd, cubicInitState)

/-- Running a BIC connection over a sequence of dispatched events. -/
def bicRun (mss initialCwnd : Nat) (evs : List Event) : SocketState × BicState :=
  evs.foldl bicOnEvent (bicInitConn mss initialCwnd)

/-- Running a CUBIC connection over a sequence of dispatched events. -/
def cubicRun (mss initialCwnd : Nat) (evs : List Event) : SocketState × CubicState :=
  evs.foldl cubicOnEvent (cubicInitConn mss initialCwnd)

/-- Events whose 32-bit window arithmetic cannot wrap on a window that is
at most `2^31`: acknowledgment bursts of at most `2^15` segments. -/
def eventInRange (e : Event) : Bool :=
  match e with
  | Event.Acked seg _ _ _ _ => seg ≤ 32768
  | _ => true

/-- Reachability invariant for a BIC connection: the MSS is fixed, the
window stays between one MSS and `2^31` bytes, and the constructor-fixed
parameters (`m_maxCwnd = 65535`, `Smax = 32`, `Smin = 1`) are untouched;
`m_minWin` stays at most `2^31`. -/
def BicInv (mss : Nat) (c : SocketState × BicState) : Prop :=
  c.1.mss = mss ∧ mss ≤ c.1.cwnd ∧ c.1.cwnd ≤ 2147483648 ∧
  c.2.maxCwnd = 65535 ∧ c.2.maxIncr = 32 ∧ c.2.minIncr = 1 ∧
  c.2.minWin ≤ 2147483648

/-- Reachability invariant for a CUBIC connection: the MSS is fixed, the
window stays between one MSS and `2^31` bytes, and `m_maxCwnd = 65535` is
untouched. -/
def CubicInv (mss : Nat) (c : SocketState × CubicState) : Prop :=
  c.1.mss = mss ∧ mss ≤ c.1.cwnd ∧ c.1.cwnd ≤ 2147483648 ∧
  c.2.maxCwnd = 65535

/-- `Cubic::CalculateK`: `K = cbrt(w_max_segments * (1 - beta) / C)` with
`w_max_segments = lastMaxCwnd / 1460`, guarded to 0 for `lastMaxCwnd == 0`
and for a negative radicand.  The `double` arithmetic is modelled over the
reals with the exact constants 0.7 and 0.4 (`m_cubicC == 0` cannot hold). -/
noncomputable def cubicCalculateK (lastMaxCwnd : Nat) : ℝ :=
  if lastMaxCwnd = 0 then 0
  else
    let wMaxSegments : ℝ := (lastMaxCwnd : ℝ) / 1460
    let numerator : ℝ := wMaxSegments * (1 - 0.7)
    let kCubed : ℝ := numerator / 0.4
    if kCubed < 0 then 0 else kCubed ^ ((1 : ℝ) / 3)

/-- `Cubic::CubicWindowCalculation` before the final `uint32_t` cast:
`W(t) = lastMaxCwnd + C * (t - K)^3 * 1460`, clamped to be nonnegative.
`k` is the stored `m_k`, `t` the elapsed epoch time in seconds. -/
noncomputable def cubicWindowTarget (lastMaxCwnd : Nat) (k t : ℝ) : ℝ :=
  let deltaT := t - k
  let cubicTerm := 0.4 * deltaT * deltaT * deltaT
  let target := (lastMaxCwnd : ℝ) + cubicTerm * 1460
  if target < 0 then 0 else target

/-- The inflection time exactly as the spec words it:
`K = cbrt(W * (1 - 0.7) / 0.4)` with `W` measured in segments. -/
noncomputable def specCubicK (wSegments : ℝ) : ℝ :=
  (wSegments * (1 - 0.7) / 0.4) ^ ((1 : ℝ) / 3)

/-- `BicUpdate` never touches the `m_maxCwnd` bound. -/
theorem bicUpdate_maxCwnd (sock : SocketState) (st : BicState) :
    (bicUpdate sock st).maxCwnd = st.maxCwnd := by
  simp only [bicUpdate]
  split_ifs <;> rfl

/-- `CubicUpdate` never touches the `m_maxCwnd` bound. -/
theorem cubicUpdate_maxCwnd (sock : SocketState) (st : CubicState)
    (now cubicTargetIn tcpWIn : Nat) :
    (cubicUpdate sock st now cubicTargetIn tcpWIn).maxCwnd = st.maxCwnd := by
  simp only [cubicUpdate]
  split_ifs <;> rfl

/-- `Cubic::SlowStart` never touches the `m_maxCwnd` bound. -/
theorem cubicSlowStart_maxCwnd (sock : SocketState) (st : CubicState) (seg : Nat) :
    (cubicSlowStart sock st seg).2.maxCwnd = st.maxCwnd := by
  simp only [cubicSlowStart]
  split_ifs <;> rfl

/-- Claim C9: for both strategies, an `Acked` event with
`segmentsAcked = 0` is a no-op for window growth: `IncreaseWindow` returns
with the socket (cwnd, ssthresh) and the whole strategy state unchanged. -/
theorem increase_window_zero_acked_noop (sock : SocketState) (stB : BicState)
    (stC : CubicState) (now cubicTargetIn tcpWIn : Nat) :
    bicIncreaseWindow sock stB 0 = (sock, stB) ∧
    cubicIncreaseWindow sock stC 0 now cubicTargetIn tcpWIn = (sock, stC) :=
  ⟨rfl, rfl⟩

/-- Claim C3: handling `PacketLoss` under BIC with `cwnd = 1000*MSS` yields
`ssthresh = 800*MSS` (multiplicative decrease with beta 0.8, floored at
`2*MSS`, which is dominated here), `cwnd = ssthresh`, and the `Recovery`
phase. -/
theorem bic_loss_thousand_mss (sock : SocketState) (st : BicState) (now : Nat)
    (h : sock.cwnd = 1000 * sock.mss) :
    (bicCwndEvent sock st CongestionEvent.PacketLoss now).1.ssthresh = 800 * sock.mss ∧
    (bicCwndEvent sock st CongestionEvent.PacketLoss now).1.cwnd =
      (bicCwndEvent sock st CongestionEvent.PacketLoss now).1.ssthresh ∧
    (bicCwndEvent sock st CongestionEvent.PacketLoss now).1.tcpState = TCPState.Recovery := by
  have hmax : max (4 * sock.cwnd / 5) (w32 (2 * sock.mss)) = 800 * sock.mss := by
    have h1 : 4 * sock.cwnd / 5 = 800 * sock.mss := by omega
    have h2 : w32 (2 * sock.mss) ≤ 800 * sock.mss := by
      have := Nat.mod_le (2 * sock.mss) u32
      simp only [w32]
      omega
    omega
  simp only [bicCwndEvent, bicGetSsThresh]
  split_ifs <;> simp_all

/-- Witness for `bic_loss_thousand_mss` at `MSS = 1460`,
`cwnd = 1460000 = 1000*MSS`. -/
theorem bic_loss_thousand_mss_witness :
    (initSocket 1460 1460000).cwnd = 1000 * (initSocket 1460 1460000).mss ∧
    (bicCwndEvent (initSocket 1460 1460000) bicInitState
        CongestionEvent.PacketLoss 5).1.ssthresh = 800 * (initSocket 1460 1460000).mss :=
  ⟨by decide, (bic_loss_thousand_mss (initSocket 1460 1460000) bicInitState 5 (by decide)).1⟩

/-- Claim C8: on a CUBIC window reduction, fast convergence (enabled, with
the window strictly below the remembered maximum) sets the new
`lastMaxCwnd` to `cwnd * (2 - beta) / 2` (the truncated `13*cwnd/20`);
otherwise `lastMaxCwnd` becomes the current window. -/
theorem cubic_fast_convergence_lastMaxCwnd (sock : SocketState) (st : CubicState) :
    (st.fastConvergence = true → sock.cwnd < st.lastMaxCwnd →
      (cubicGetSsThresh sock st).2.lastMaxCwnd = 13 * sock.cwnd / 20) ∧
    (¬(st.fastConvergence = true ∧ sock.cwnd < st.lastMaxCwnd) →
      (cubicGetSsThresh sock st).2.lastMaxCwnd = sock.cwnd) := by
  simp only [cubicGetSsThresh]
  split_ifs with h
  · exact ⟨fun _ _ => rfl, fun hn => absurd h hn⟩
  · exact ⟨fun h1 h2 => absurd ⟨h1, h2⟩ h, fun _ => rfl⟩

/-- Witness for `cubic_fast_convergence_lastMaxCwnd`: both branches at
concrete states (`cwnd = 1000 < lastMaxCwnd = 2000`, and
`cwnd = 3000 ≥ lastMaxCwnd = 2000`). -/
theorem cubic_fast_convergence_lastMaxCwnd_witness :
    (cubicGetSsThresh (initSocket 1460 1000)
        { cubicInitState with lastMaxCwnd := 2000 }).2.lastMaxCwnd = 13 * 1000 / 20 ∧
    (cubicGetSsThresh (initSocket 1460 3000)
        { cubicInitState with lastMaxCwnd := 2000 }).2.lastMaxCwnd = 3000 :=
  ⟨(cubic_fast_convergence_lastMaxCwnd (initSocket 1460 1000)
      { cubicInitState with lastMaxCwnd := 2000 }).1 rfl (by decide),
   (cubic_fast_convergence_lastMaxCwnd (initSocket 1460 3000)
      { cubicInitState with lastMaxCwnd := 2000 }).2 (by decide)⟩

/-- Claim C2, counterexample: under BIC, handling `PacketLoss` does NOT
set `lastMaxCwnd` to `max(lastMaxCwnd, cwnd)`: with a remembered maximum
of 200000 bytes and a current window of 100000 bytes, the transient
max-update in `CwndEvent` is overwritten by `GetSsThresh`, leaving
`lastMaxCwnd = 100000`, not `max 200000 100000 = 200000`. -/
theorem bic_loss_lastMaxCwnd_not_max :
    (bicCwndEvent (initSocket 1460 100000)
        { bicInitState with lastMaxCwnd := 200000 }
        CongestionEvent.PacketLoss 7).2.lastMaxCwnd = 100000 ∧
    max ({ bicInitState with lastMaxCwnd := 200000 } : BicState).lastMaxCwnd
        (initSocket 1460 100000).cwnd = 200000 ∧
    (100000 : Nat) ≠ 200000 := by
  refine ⟨by decide, by decide, by decide⟩

/-- Claim C2 (amended): for both strategies a `Timeout` sets `cwnd` to
exactly `1*MSS`, sets the phase to `Loss`, and fully clears the strategy
memory (`lastMaxCwnd`, counters, epoch restart).  A `PacketLoss` preserves
a remembered maximum rather than clearing it, but not as
`max(lastMaxCwnd, cwnd)`: BIC's `GetSsThresh` unconditionally overwrites
`lastMaxCwnd` with the current window (the preceding max-update in
`CwndEvent` is dead), and CUBIC sets it to the truncated
`cwnd*(2-beta)/2` when fast convergence applies (window below the
remembered maximum), else to the current window; both enter `Recovery`. -/
theorem timeout_resets_loss_preserves_memory (sock : SocketState)
    (stB : BicState) (stC : CubicState) (now : Nat) :
    (bicCwndEvent sock stB CongestionEvent.Timeout now).1.cwnd = sock.mss ∧
    (bicCwndEvent sock stB CongestionEvent.Timeout now).1.tcpState = TCPState.Loss ∧
    (bicCwndEvent sock stB CongestionEvent.Timeout now).2.lastMaxCwnd = 0 ∧
    (bicCwndEvent sock stB CongestionEvent.Timeout now).2.minWin = 0 ∧
    (bicCwndEvent sock stB CongestionEvent.Timeout now).2.foundNewMax = false ∧
    (bicCwndEvent sock stB CongestionEvent.Timeout now).2.ackCount = 0 ∧
    (bicCwndEvent sock stB CongestionEvent.Timeout now).2.smoothPart = 0 ∧
    (bicCwndEvent sock stB CongestionEvent.Timeout now).2.epochStart = now ∧
    (bicCwndEvent sock stB CongestionEvent.PacketLoss now).2.lastMaxCwnd = sock.cwnd ∧
    (bicCwndEvent sock stB CongestionEvent.PacketLoss now).1.tcpState = TCPState.Recovery ∧
    (cubicCwndEvent sock stC CongestionEvent.Timeout now).1.cwnd = sock.mss ∧
    (cubicCwndEvent sock stC CongestionEvent.Timeout now).1.tcpState = TCPState.Loss ∧
    (cubicCwndEvent sock stC CongestionEvent.Timeout now).2.lastMaxCwnd = 0 ∧
    (cubicCwndEvent sock stC CongestionEvent.Timeout now).2.ackCount = 0 ∧
    (cubicCwndEvent sock stC CongestionEvent.Timeout now).2.cntRtt = 0 ∧
    (cubicCwndEvent sock stC CongestionEvent.Timeout now).2.tcpCwnd = 0 ∧
    (cubicCwndEvent sock stC CongestionEvent.Timeout now).2.lastTime = 0 ∧
    (cubicCwndEvent sock stC CongestionEvent.Timeout now).2.epochStart = now ∧
    (cubicCwndEvent sock stC CongestionEvent.PacketLoss now).2.lastMaxCwnd =
      (if stC.fastConvergence = true ∧ sock.cwnd < stC.lastMaxCwnd
        then 13 * sock.cwnd / 20 else sock.cwnd) ∧
    (cubicCwndEvent sock stC CongestionEvent.PacketLoss now).1.tcpState =
      TCPState.Recovery := by
  simp only [bicCwndEvent, bicGetSsThresh, bicReset, cubicCwndEvent,
    cubicGetSsThresh, cubicReset]
  split_ifs <;> simp_all

/-- Claim C10, counterexample: a call to `IncreaseWindow` with
`segmentsAcked = 0` returns before the clamp, so the window can remain
above `m_maxCwnd` (default 65535) after the call: with `cwnd = 100000`
the window stays 100000 > 65535. -/
theorem increase_window_zero_acked_exceeds_maxCwnd :
    (bicIncreaseWindow (initSocket 1460 100000) bicInitState 0).1.cwnd = 100000 ∧
    (bicIncreaseWindow (initSocket 1460 100000) bicInitState 0).2.maxCwnd = 65535 ∧
    ¬((bicIncreaseWindow (initSocket 1460 100000) bicInitState 0).1.cwnd ≤ 65535) := by
  refine ⟨by decide, by decide, by decide⟩

/-- Claim C10 (amended): for both strategies, after every call to
`IncreaseWindow` with `segmentsAcked ≥ 1` the connection window is at most
the strategy's `m_maxCwnd` bound (65535 by default); a call with
`segmentsAcked = 0` returns without clamping. -/
theorem increase_window_clamped_to_maxCwnd (sock : SocketState) (stB : BicState)
    (stC : CubicState) (seg now cubicTargetIn tcpWIn : Nat) (hseg : 1 ≤ seg) :
    (bicIncreaseWindow sock stB seg).1.cwnd ≤ stB.maxCwnd ∧
    (cubicIncreaseWindow sock stC seg now cubicTargetIn tcpWIn).1.cwnd ≤ stC.maxCwnd := by
  have hs : ¬(seg = 0) := by omega
  constructor
  · simp only [bicIncreaseWindow, if_neg hs]
    split_ifs <;> simp [bicUpdate_maxCwnd, Nat.min_le_right]
  · simp only [cubicIncreaseWindow, if_neg hs]
    split_ifs <;>
      simp [cubicUpdate_maxCwnd, cubicSlowStart_maxCwnd, Nat.min_le_right]

/-- Witness for `increase_window_clamped_to_maxCwnd` at a ten-segment
acknowledgment on a 100000-byte window. -/
theorem increase_window_clamped_to_maxCwnd_witness :
    (1 : Nat) ≤ 10 ∧
    (bicIncreaseWindow (initSocket 1460 100000) bicInitState 10).1.cwnd ≤
      bicInitState.maxCwnd ∧
    (cubicIncreaseWindow (initSocket 1460 100000) cubicInitState 10 7 20000
      15000).1.cwnd ≤ cubicInitState.maxCwnd :=
  ⟨by decide,
   (increase_window_clamped_to_maxCwnd (initSocket 1460 100000) bicInitState
      cubicInitState 10 7 20000 15000 (by decide)).1,
   (increase_window_clamped_to_maxCwnd (initSocket 1460 100000) bicInitState
      cubicInitState 10 7 20000 15000 (by decide)).2⟩

/-- Claim C4: the Vegas congestion-avoidance step, as a function of the
computed `diff`: strictly below `alpha` the window grows by exactly one
MSS, strictly above `beta` it shrinks by exactly one MSS, and inside
`[alpha, beta]` it is unchanged.  The thresholds satisfy `alpha ≤ beta`
(as the claim's own case split presumes) and the window arithmetic does
not wrap. -/
theorem vegas_ca_step_cases (st : VegasState) (mss : Nat)
    (hab : toInt32 st.alpha ≤ toInt32 st.beta)
    (hwrap : st.cwnd + mss < u32) (hm : mss ≤ st.cwnd) :
    (vegasCalculateDiff st < toInt32 st.alpha →
      (vegasUpdate st mss).cwnd = st.cwnd + mss) ∧
    (toInt32 st.beta < vegasCalculateDiff st →
      (vegasUpdate st mss).cwnd = st.cwnd - mss) ∧
    (toInt32 st.alpha ≤ vegasCalculateDiff st →
      vegasCalculateDiff st ≤ toInt32 st.beta →
      (vegasUpdate st mss).cwnd = st.cwnd) := by
  have hcw : st.cwnd < u32 := by omega
  have h1 : w32 (st.cwnd + mss) = st.cwnd + mss := Nat.mod_eq_of_lt hwrap
  have h2 : sub32 st.cwnd mss = st.cwnd - mss := by
    simp only [sub32, u32] at *
    omega
  refine ⟨fun h => ?_, fun h => ?_, fun ha hb => ?_⟩
  · simp [vegasUpdate, h, h1]
  · have hna : ¬(vegasCalculateDiff st < toInt32 st.alpha) := by omega
    simp [vegasUpdate, hna, h, h2]
  · have hna : ¬(vegasCalculateDiff st < toInt32 st.alpha) := by omega
    have hnb : ¬(toInt32 st.beta < vegasCalculateDiff st) := by omega
    simp [vegasUpdate, hna, hnb]

/-- Witness for `vegas_ca_step_cases`: the increase case at
`cwnd = 14600`, `baseRTT = currentRTT = 100`, `alpha = 2`, `beta = 4`,
`MSS = 1460` (computed `diff = 0 < alpha`). -/
theorem vegas_ca_step_cases_witness :
    toInt32 (2 : Nat) ≤ toInt32 (4 : Nat) ∧
    (14600 + 1460 : Nat) < u32 ∧
    vegasCalculateDiff ⟨14600, 100, 100, 2, 4⟩ < toInt32 (2 : Nat) ∧
    (vegasUpdate ⟨14600, 100, 100, 2, 4⟩ 1460).cwnd = 14600 + 1460 :=
  ⟨by decide, by decide, by decide,
   (vegas_ca_step_cases ⟨14600, 100, 100, 2, 4⟩ 1460 (by decide) (by decide)
      (by decide)).1 (by decide)⟩

/-- Claim C5, counterexample: with `baseRTT = currentRTT = 100` the
computed `diff` is 0, which is below `alpha = 2`, and the Vegas step does
NOT keep the window unchanged: it grows from 14600 to 16060 (one MSS). -/
theorem vegas_equal_rtt_cwnd_changes :
    vegasCalculateDiff ⟨14600, 100, 100, 2, 4⟩ = 0 ∧
    (0 : Int) < toInt32 (2 : Nat) ∧
    (vegasUpdate ⟨14600, 100, 100, 2, 4⟩ 1460).cwnd = 16060 ∧
    (vegasUpdate ⟨14600, 100, 100, 2, 4⟩ 1460).cwnd ≠
      (⟨14600, 100, 100, 2, 4⟩ : VegasState).cwnd := by
  refine ⟨by decide, by decide, by decide, by decide⟩

/-- Claim C5 (amended): with `baseRTT = currentRTT = 100` the computed
`diff` is 0; since `0 < alpha`, the congestion-avoidance step increases
the window by exactly one MSS (rather than leaving it unchanged). -/
theorem vegas_equal_rtt_increases_one_mss (st : VegasState) (mss : Nat)
    (hb : st.baseRTT = 100) (hc : st.currentRTT = 100)
    (ha : 0 < toInt32 st.alpha) (hwrap : st.cwnd + mss < u32) :
    (vegasUpdate st mss).cwnd = st.cwnd + mss := by
  have hd : vegasCalculateDiff st = 0 := by
    simp [vegasCalculateDiff, hb, hc]
  have h1 : w32 (st.cwnd + mss) = st.cwnd + mss := Nat.mod_eq_of_lt hwrap
  simp [vegasUpdate, hd, ha, h1]

/-- Witness for `vegas_equal_rtt_increases_one_mss` at the concrete state
of the claim. -/
theorem vegas_equal_rtt_increases_one_mss_witness :
    (⟨14600, 100, 100, 2, 4⟩ : VegasState).baseRTT = 100 ∧
    (⟨14600, 100, 100, 2, 4⟩ : VegasState).currentRTT = 100 ∧
    (0 : Int) < toInt32 (⟨14600, 100, 100, 2, 4⟩ : VegasState).alpha ∧
    (vegasUpdate ⟨14600, 100, 100, 2, 4⟩ 1460).cwnd = 14600 + 1460 :=
  ⟨by decide, by decide, by decide,
   vegas_equal_rtt_increases_one_mss ⟨14600, 100, 100, 2, 4⟩ 1460 rfl rfl
     (by decide) (by decide)⟩

/-- Claim C6: under BIC, from a state with `lastMaxCwnd = 1000*MSS` and
`cwnd = 500*MSS` (a maximum already found this epoch, so the target is
`lastMaxCwnd`), one congestion-avoidance growth step performs the
binary-search increase `dist/2 = 250` segments and yields
`cwnd = 750*MSS`, in the case where `dist = 500 ≤ Smax` applies
(`Smax = m_maxIncr ≥ 500`, `Smin = m_minIncr ≤ 250` so that the minimum
step does not override, and the `m_minWin` floor does not apply). -/
theorem bic_binary_search_midpoint (sock : SocketState) (st : BicState)
    (hm1 : 1 ≤ sock.mss) (hm2 : sock.mss ≤ 65535)
    (hfound : st.foundNewMax = true)
    (hlast : st.lastMaxCwnd = 1000 * sock.mss)
    (hcwnd : st.cwnd = 500 * sock.mss)
    (hSmax1 : 500 ≤ st.maxIncr) (hSmax2 : st.maxIncr ≤ 2147483647)
    (hSmin : st.minIncr ≤ 250) (hminw : st.minWin ≤ 750 * sock.mss) :
    (bicUpdate sock st).cwnd = 750 * sock.mss := by
  obtain ⟨ss, cw, mc, lm, lc, mw, mxi, mni, lw, sp, fnm, ac, ep⟩ := st
  dsimp only at hfound hlast hcwnd hSmax1 hSmax2 hSmin hminw
  subst hfound hlast hcwnd
  have hmss : 0 < sock.mss := hm1
  have hc0 : ¬((true = false) ∨ 1000 * sock.mss = 0) := by
    rintro (h | h)
    · exact Bool.noConfusion h
    · omega
  have key1 : sub32 (1000 * sock.mss) (500 * sock.mss) = 500 * sock.mss := by
    simp only [sub32, u32]
    omega
  have key2 : 500 * sock.mss / sock.mss = 500 := by
    rw [Nat.mul_comm, Nat.mul_div_cancel_left 500 hmss]
  have hdist : toInt32 (sub32 (1000 * sock.mss) (500 * sock.mss) / sock.mss) = 500 := by
    rw [key1, key2]; decide
  have hmaxI : toInt32 mxi = (mxi : Int) := by
    simp only [toInt32, u32]
    rw [if_pos (by omega)]
    omega
  have hminI : toInt32 mni = (mni : Int) := by
    simp only [toInt32, u32]
    rw [if_pos (by omega)]
    omega
  have h52 : (500 : Int).toNat / 2 = 250 := by decide
  have hmul : mni * sock.mss ≤ 250 * sock.mss := Nat.mul_le_mul_right sock.mss hSmin
  have hw250 : w32 (250 * sock.mss) = 250 * sock.mss := by
    simp only [w32, u32]; omega
  have hwmin : w32 (mni * sock.mss) = mni * sock.mss := by
    simp only [w32, u32]; omega
  have hw750 : w32 (500 * sock.mss + 250 * sock.mss) = 750 * sock.mss := by
    simp only [w32, u32]; omega
  have hA : ¬((500 : Int) > (mxi : Int)) := by omega
  have hB0 : (500 : Int) > 0 := by decide
  have hBmin : (500 : Int) > (mni : Int) := by omega
  have hC : ¬(250 * sock.mss < mni * sock.mss) := by omega
  have hD : ¬(750 * sock.mss < mw) := by omega
  simp only [bicUpdate, if_neg hc0, hdist, hmaxI, hminI, h52, hw250, hwmin,
    if_neg hA, if_pos hB0, if_pos hBmin, if_neg hC, hw750, if_neg hD]

/-- Witness for `bic_binary_search_midpoint` at `MSS = 1460`,
`lastMaxCwnd = 1460000`, `cwnd = 730000`, `Smax = 512`, `Smin = 1`:
the step yields `cwnd = 1095000 = 750*MSS`. -/
theorem bic_binary_search_midpoint_witness :
    (bicUpdate (initSocket 1460 730000)
        { bicInitState with cwnd := 730000, lastMaxCwnd := 1460000,
                            foundNewMax := true, maxIncr := 512 }).cwnd =
      750 * 1460 :=
  bic_binary_search_midpoint (initSocket 1460 730000)
    { bicInitState with cwnd := 730000, lastMaxCwnd := 1460000,
                        foundNewMax := true, maxIncr := 512 }
    (by decide) (by decide) (by decide) (by decide) (by decide) (by decide)
    (by decide) (by decide) (by decide)

/-- Claim C7: under CUBIC (beta 0.7, C 0.4), the computed inflection time
is `K = cbrt(W * (1 - 0.7) / 0.4)` with the remembered maximum `W`
measured in segments (`lastMaxCwnd / 1460`), and evaluating the cubic
target window at elapsed time `t = K` yields exactly `lastMaxCwnd`: the
cubic term vanishes. -/
theorem cubic_k_formula_and_window_at_k (lastMaxCwnd : Nat) :
    cubicCalculateK lastMaxCwnd = specCubicK ((lastMaxCwnd : ℝ) / 1460) ∧
    cubicWindowTarget lastMaxCwnd (cubicCalculateK lastMaxCwnd)
      (cubicCalculateK lastMaxCwnd) = (lastMaxCwnd : ℝ) := by
  constructor
  · simp only [cubicCalculateK, specCubicK]
    split_ifs with h h2
    · subst h
      rw [show ((0 : Nat) : ℝ) / 1460 * (1 - 0.7) / 0.4 = 0 by norm_num]
      rw [Real.zero_rpow (by norm_num)]
    · exfalso
      have h0 : (0 : ℝ) ≤ (lastMaxCwnd : ℝ) := Nat.cast_nonneg lastMaxCwnd
      have h3 : (0 : ℝ) ≤ (lastMaxCwnd : ℝ) / 1460 * (1 - 0.7) / 0.4 := by
        rw [show (1 : ℝ) - 0.7 = 0.3 by norm_num]
        positivity
      linarith
    · rfl
  · simp only [cubicWindowTarget, sub_self, mul_zero, zero_mul, add_zero]
    rw [if_neg (Nat.cast_nonneg lastMaxCwnd).not_lt]

/-- Claim C1, counterexample: the Vegas congestion-avoidance decrease step
has no floor.  At a window of one segment (1460 bytes = MSS) with
`baseRTT = 100` and `currentRTT = 1200` the computed diff is
`11 > beta = 4`, and the step drives the window to `0 < MSS`. -/
theorem vegas_decrease_below_mss :
    vegasCalculateDiff ⟨1460, 100, 1200, 2, 4⟩ = 11 ∧
    toInt32 4 < (11 : Int) ∧
    (vegasUpdate ⟨1460, 100, 1200, 2, 4⟩ 1460).cwnd = 0 ∧
    (vegasUpdate ⟨1460, 100, 1200, 2, 4⟩ 1460).cwnd < 1460 := by
  refine ⟨by decide, by decide, by decide, by decide⟩

/-- The binary-search half step is bounded by `Smax = 32` segments when the
distance is. -/
theorem half_step_le (d : Int) (m : Nat) (hd : d ≤ 32) :
    d.toNat / 2 * m ≤ 32 * m := by
  have h1 : d.toNat / 2 ≤ 16 := by omega
  calc d.toNat / 2 * m ≤ 16 * m := Nat.mul_le_mul_right m h1
    _ ≤ 32 * m := by omega

/-- `BicUpdate` leaves the configuration fields alone. -/
theorem bicUpdate_params (sock : SocketState) (st : BicState) :
    (bicUpdate sock st).maxIncr = st.maxIncr ∧
    (bicUpdate sock st).minIncr = st.minIncr ∧
    (bicUpdate sock st).minWin = st.minWin := by
  simp only [bicUpdate]
  split_ifs <;> exact ⟨rfl, rfl, rfl⟩

/-- Shape of the `BicUpdate` window change: with the default `Smax = 32`
and `Smin = 1` the window is increased by at most 32 MSS (modulo 2^32),
or floored to `m_minWin` when the increased value is still below it. -/
theorem bicUpdate_exists_inc (sock : SocketState) (st : BicState)
    (hmax : st.maxIncr = 32) (hmin : st.minIncr = 1) :
    ∃ inc : Nat, inc ≤ 32 * sock.mss ∧
      ((bicUpdate sock st).cwnd = w32 (st.cwnd + inc) ∨
       ((bicUpdate sock st).cwnd = st.minWin ∧ w32 (st.cwnd + inc) < st.minWin)) := by
  obtain ⟨ss, cw, mc, lm, lc, mw, mxi, mni, lwd, sp, fnm, ac, ep⟩ := st
  dsimp only at hmax hmin ⊢
  subst hmax hmin
  simp only [bicUpdate]
  rw [show toInt32 32 = (32 : Int) from by decide,
      show toInt32 1 = (1 : Int) from by decide]
  split_ifs <;> (dsimp only at *) <;>
    (first
      | refine ⟨_, ?_, Or.inl rfl⟩
      | refine ⟨_, ?_, Or.inr ⟨rfl, by assumption⟩⟩) <;>
    (first
      | exact Nat.mod_le _ _
      | exact le_trans (Nat.mod_le _ _) (by omega)
      | exact le_trans (Nat.mod_le _ _) (half_step_le _ _ (by omega)))

/-- `BicUpdate` keeps the window at or above one MSS when the state is in
range (window between one MSS and 2^31, default increments, MSS at most
65535): every branch adds at most 32 MSS, which cannot wrap. -/
theorem bicUpdate_cwnd_ge (sock : SocketState) (st : BicState)
    (hm2 : sock.mss ≤ 65535) (hc1 : sock.mss ≤ st.cwnd) (hc2 : st.cwnd ≤ 2147483648)
    (hmax : st.maxIncr = 32) (hmin : st.minIncr = 1) :
    sock.mss ≤ (bicUpdate sock st).cwnd := by
  obtain ⟨inc, hinc, hcase⟩ := bicUpdate_exists_inc sock st hmax hmin
  have h32 : 32 * sock.mss ≤ 2097120 := by omega
  have hnw : w32 (st.cwnd + inc) = st.cwnd + inc := by
    simp only [w32, u32]; omega
  rcases hcase with h | ⟨h, hlt⟩
  · rw [h, hnw]; omega
  · rw [h]; rw [hnw] at hlt; omega

/-- `BIC::PktsAcked` only touches the RTT bookkeeping of the socket and
the strategy's ACK counter. -/
theorem bicPktsAcked_fields (sock : SocketState) (st : BicState) (seg rtt : Nat) :
    (bicPktsAcked sock st seg rtt).1.cwnd = sock.cwnd ∧
    (bicPktsAcked sock st seg rtt).1.mss = sock.mss ∧
    (bicPktsAcked sock st seg rtt).1.ssthresh = sock.ssthresh ∧
    (bicPktsAcked sock st seg rtt).1.tcpState = sock.tcpState ∧
    (bicPktsAcked sock st seg rtt).2.maxCwnd = st.maxCwnd ∧
    (bicPktsAcked sock st seg rtt).2.maxIncr = st.maxIncr ∧
    (bicPktsAcked sock st seg rtt).2.minIncr = st.minIncr ∧
    (bicPktsAcked sock st seg rtt).2.minWin = st.minWin :=
  ⟨rfl, rfl, rfl, rfl, rfl, rfl, rfl, rfl⟩

/-- `BIC::IncreaseWindow` preserves the `BicInv` reachability invariant for
any in-range acknowledgment burst. -/
theorem bicIncreaseWindow_inv (mss seg : Nat) (sock : SocketState) (st : BicState)
    (hm1 : 1 ≤ mss) (hm2 : mss ≤ 65535) (hseg : seg ≤ 32768)
    (hinv : BicInv mss (sock, st)) :
    BicInv mss (bicIncreaseWindow sock st seg) := by
  obtain ⟨scw, sss, smss, stst, srtt, svar, srto, sce⟩ := sock
  obtain ⟨bss, bcw, bmc, blm, blc, bmw, bmxi, bmni, blw, bsp, bfnm, bac, bep⟩ := st
  obtain ⟨hmss, hc1, hc2, hmc, hmax, hmin, hwin⟩ := hinv
  dsimp only at hmss hc1 hc2 hmc hmax hmin hwin
  subst hmss hmc hmax hmin
  by_cases h0 : seg = 0
  · simp only [bicIncreaseWindow, if_pos h0]
    exact ⟨rfl, hc1, hc2, rfl, rfl, rfl, hwin⟩
  · have hsm : seg * smss ≤ 2147450880 :=
      le_trans (Nat.mul_le_mul hseg hm2) (by omega)
    simp only [bicIncreaseWindow, if_neg h0]
    split_ifs with hrec hss
    · -- fast recovery
      refine ⟨rfl, ?_, ?_, rfl, rfl, rfl, hwin⟩ <;>
        (dsimp only [bicFastRecovery]; simp only [w32, u32]; omega)
    · -- slow start
      refine ⟨rfl, ?_, ?_, rfl, rfl, rfl, hwin⟩ <;>
        (dsimp only [bicSlowStart]; simp only [if_neg h0, w32, u32];
         split_ifs <;> omega)
    · -- congestion avoidance (BicUpdate)
      have hge := bicUpdate_cwnd_ge
        ⟨scw, sss, smss, stst, srtt, svar, srto, sce⟩
        ⟨sss, scw, 65535, blm, blc, bmw, 32, 1, blw, bsp, bfnm, bac, bep⟩
        hm2 hc1 hc2 rfl rfl
      obtain ⟨hp1, hp2, hp3⟩ := bicUpdate_params
        ⟨scw, sss, smss, stst, srtt, svar, srto, sce⟩
        ⟨sss, scw, 65535, blm, blc, bmw, 32, 1, blw, bsp, bfnm, bac, bep⟩
      have hmc2 := bicUpdate_maxCwnd
        ⟨scw, sss, smss, stst, srtt, svar, srto, sce⟩
        ⟨sss, scw, 65535, blm, blc, bmw, 32, 1, blw, bsp, bfnm, bac, bep⟩
      dsimp only at hge hp1 hp2 hp3 hmc2 ⊢
      refine ⟨rfl, ?_, ?_, ?_, ?_, ?_, ?_⟩ <;>
        simp only [hmc2, hp1, hp2, hp3] <;> omega

/-- `BIC::CwndEvent` preserves the `BicInv` reachability invariant. -/
theorem bicCwndEvent_inv (mss now : Nat) (sock : SocketState) (st : BicState)
    (hm1 : 1 ≤ mss) (hm2 : mss ≤ 65535) (hinv : BicInv mss (sock, st))
    (ev : CongestionEvent) :
    BicInv mss (bicCwndEvent sock st ev now) := by
  obtain ⟨scw, sss, smss, stst, srtt, svar, srto, sce⟩ := sock
  obtain ⟨bss, bcw, bmc, blm, blc, bmw, bmxi, bmni, blw, bsp, bfnm, bac, bep⟩ := st
  obtain ⟨hmss, hc1, hc2, hmc, hmax, hmin, hwin⟩ := hinv
  dsimp only at hmss hc1 hc2 hmc hmax hmin hwin
  subst hmss hmc hmax hmin
  cases ev with
  | PacketLoss =>
    simp only [bicCwndEvent, bicGetSsThresh, ite_true, ite_false]
    rw [if_neg (show ¬(CongestionEvent.PacketLoss = CongestionEvent.Timeout) by decide)]
    split_ifs <;> refine ⟨rfl, ?_, ?_, rfl, rfl, rfl, ?_⟩ <;>
      (simp only [w32, u32]; omega)
  | Timeout =>
    simp only [bicCwndEvent, bicGetSsThresh, ite_true, ite_false]
    split_ifs <;> refine ⟨rfl, ?_, ?_, rfl, rfl, rfl, ?_⟩ <;>
      (simp only [bicReset, w32, u32]; omega)
  | ECN =>
    simp only [bicCwndEvent, bicGetSsThresh]
    refine ⟨rfl, ?_, ?_, rfl, rfl, rfl, ?_⟩ <;> (simp only [w32, u32]; omega)
  | FastRecovery => exact ⟨rfl, hc1, hc2, rfl, rfl, rfl, hwin⟩
  | NoEvent => exact ⟨rfl, hc1, hc2, rfl, rfl, rfl, hwin⟩

/-- After any window-reducing event (`PacketLoss`, `Timeout`, `ECN`), the
BIC slow-start threshold on the socket is at least two MSS. -/
theorem bicCwndEvent_ssthresh_ge (mss now : Nat) (sock : SocketState) (st : BicState)
    (hm2 : mss ≤ 65535) (hmss : sock.mss = mss) (ev : CongestionEvent)
    (hev : ev = CongestionEvent.PacketLoss ∨ ev = CongestionEvent.Timeout ∨
           ev = CongestionEvent.ECN) :
    2 * mss ≤ (bicCwndEvent sock st ev now).1.ssthresh := by
  obtain ⟨scw, sss, smss, stst, srtt, svar, srto, sce⟩ := sock
  dsimp only at hmss
  subst hmss
  rcases hev with rfl | rfl | rfl
  · simp only [bicCwndEvent, bicGetSsThresh, ite_true, ite_false]
    rw [if_neg (show ¬(CongestionEvent.PacketLoss = CongestionEvent.Timeout) by decide)]
    exact le_trans (by simp only [w32, u32]; omega) (le_max_right _ _)
  · simp only [bicCwndEvent, bicGetSsThresh, bicReset, ite_true, ite_false]
    exact le_trans (by simp only [w32, u32]; omega) (le_max_right _ _)
  · simp only [bicCwndEvent, bicGetSsThresh]
    exact le_trans (by simp only [w32, u32]; omega) (le_max_right _ _)

/-- Single-event dispatch preserves the BIC invariant. -/
theorem bicOnEvent_inv (mss : Nat) (hm1 : 1 ≤ mss) (hm2 : mss ≤ 65535)
    (c : SocketState × BicState) (e : Event) (hinv : BicInv mss c)
    (he : eventInRange e = true) : BicInv mss (bicOnEvent c e) := by
  obtain ⟨sock, st⟩ := c
  cases e with
  | Acked seg rtt now tgt tcpW =>
    have hseg : seg ≤ 32768 := by simpa [eventInRange] using he
    dsimp only [bicOnEvent]
    split_ifs with hr
    · obtain ⟨hf1, hf2, hf3, hf4, hf5, hf6, hf7, hf8⟩ := bicPktsAcked_fields sock st seg rtt
      obtain ⟨h1, h2, h3, h4, h5, h6, h7⟩ := hinv
      exact bicIncreaseWindow_inv mss seg _ _ hm1 hm2 hseg
        ⟨by rw [hf2]; exact h1, by rw [hf1]; exact h2, by rw [hf1]; exact h3,
         by rw [hf5]; exact h4, by rw [hf6]; exact h5, by rw [hf7]; exact h6,
         by rw [hf8]; exact h7⟩
    · exact bicIncreaseWindow_inv mss seg sock st hm1 hm2 hseg hinv
  | PacketLoss now => exact bicCwndEvent_inv mss now sock st hm1 hm2 hinv _
  | Timeout now => exact bicCwndEvent_inv mss now sock st hm1 hm2 hinv _
  | ECNSignaled now => exact bicCwndEvent_inv mss now sock st hm1 hm2 hinv _

/-- Folding any in-range event sequence preserves the BIC invariant. -/
theorem bicFoldl_inv (mss : Nat) (hm1 : 1 ≤ mss) (hm2 : mss ≤ 65535)
    (evs : List Event) :
    ∀ c, BicInv mss c → (∀ e ∈ evs, eventInRange e = true) →
      BicInv mss (evs.foldl bicOnEvent c) := by
  induction evs with
  | nil => intro c hc _; exact hc
  | cons e es ih =>
    intro c hc hall
    simp only [List.foldl_cons]
    exact ih _ (bicOnEvent_inv mss hm1 hm2 c e hc (hall e (by simp)))
      (fun e' he' => hall e' (by simp [he']))

/-- The BIC invariant holds in every state reachable from an initialized
connection. -/
theorem bicRun_inv (mss c0 : Nat) (hm1 : 1 ≤ mss) (hm2 : mss ≤ 65535)
    (hc1 : mss ≤ c0) (hc2 : c0 ≤ 2147483648) (evs : List Event)
    (hevs : ∀ e ∈ evs, eventInRange e = true) :
    BicInv mss (bicRun mss c0 evs) := by
  exact bicFoldl_inv mss hm1 hm2 evs _ ⟨rfl, hc1, hc2, rfl, rfl, rfl, Nat.zero_le _⟩ hevs

/-- `Cubic::PktsAcked` only touches RTT bookkeeping, Hystart fields, the
slow-start thresholds and the counters. -/
theorem cubicPktsAcked_fields (sock : SocketState) (st : CubicState) (seg rtt : Nat) :
    (cubicPktsAcked sock st seg rtt).1.cwnd = sock.cwnd ∧
    (cubicPktsAcked sock st seg rtt).1.mss = sock.mss ∧
    (cubicPktsAcked sock st seg rtt).1.tcpState = sock.tcpState ∧
    (cubicPktsAcked sock st seg rtt).2.maxCwnd = st.maxCwnd := by
  simp only [cubicPktsAcked]
  split_ifs <;> exact ⟨rfl, rfl, rfl, rfl⟩

/-- `CubicUpdate` either keeps the window or adds one MSS (modulo 2^32),
whatever the time- and float-dependent target inputs are. -/
theorem cubicUpdate_cwnd_cases (sock : SocketState) (st : CubicState)
    (now cubicTargetIn tcpWIn : Nat) :
    (cubicUpdate sock st now cubicTargetIn tcpWIn).cwnd = st.cwnd ∨
    (cubicUpdate sock st now cubicTargetIn tcpWIn).cwnd = w32 (st.cwnd + sock.mss) := by
  simp only [cubicUpdate]
  split_ifs <;> first | exact Or.inl rfl | exact Or.inr rfl

/-- `Cubic::IncreaseWindow` preserves the `CubicInv` reachability
invariant for any in-range acknowledgment burst. -/
theorem cubicIncreaseWindow_inv (mss seg : Nat) (sock : SocketState) (st : CubicState)
    (now cubicTargetIn tcpWIn : Nat)
    (hm1 : 1 ≤ mss) (hm2 : mss ≤ 65535) (hseg : seg ≤ 32768)
    (hinv : CubicInv mss (sock, st)) :
    CubicInv mss (cubicIncreaseWindow sock st seg now cubicTargetIn tcpWIn) := by
  obtain ⟨scw, sss, smss, stst, srtt, svar, srto, sce⟩ := sock
  obtain ⟨css, ccw, cmc, clm, clc, cfc, ctf, ctc, clt, cac, ccr, cdm, che, cha, chmn, chmx, cep⟩ := st
  obtain ⟨hmss, hc1, hc2, hmc⟩ := hinv
  dsimp only at hmss hc1 hc2 hmc
  subst hmss hmc
  by_cases h0 : seg = 0
  · simp only [cubicIncreaseWindow, if_pos h0]
    exact ⟨rfl, hc1, hc2, rfl⟩
  · have hsm : seg * smss ≤ 2147450880 :=
      le_trans (Nat.mul_le_mul hseg hm2) (by omega)
    simp only [cubicIncreaseWindow, if_neg h0]
    split_ifs with hrec hss
    · -- fast recovery
      refine ⟨rfl, ?_, ?_, rfl⟩ <;>
        (dsimp only [cubicFastRecovery]; simp only [w32, u32]; omega)
    · -- slow start
      have hsp := cubicSlowStart_maxCwnd
        ⟨scw, sss, smss, stst, srtt, svar, srto, sce⟩
        ⟨sss, scw, 65535, clm, clc, cfc, ctf, ctc, clt, cac, ccr, cdm, che, cha, chmn, chmx, cep⟩
        seg
      refine ⟨rfl, ?_, ?_, hsp⟩ <;>
        (dsimp only [cubicSlowStart]; simp only [if_neg h0, w32, u32];
         split_ifs <;> (dsimp only; omega))
    · -- congestion avoidance (CubicUpdate)
      rcases cubicUpdate_cwnd_cases
          ⟨scw, sss, smss, stst, srtt, svar, srto, sce⟩
          ⟨sss, scw, 65535, clm, clc, cfc, ctf, ctc, clt, cac, ccr, cdm, che, cha, chmn, chmx, cep⟩
          now cubicTargetIn tcpWIn with hcw | hcw <;>
        have hmcu := cubicUpdate_maxCwnd
          ⟨scw, sss, smss, stst, srtt, svar, srto, sce⟩
          ⟨sss, scw, 65535, clm, clc, cfc, ctf, ctc, clt, cac, ccr, cdm, che, cha, chmn, chmx, cep⟩
          now cubicTargetIn tcpWIn <;>
        dsimp only at hcw hmcu ⊢ <;>
        refine ⟨rfl, ?_, ?_, ?_⟩ <;>
        simp only [hmcu, hcw, w32, u32] <;> omega

/-- `Cubic::CwndEvent` preserves the `CubicInv` reachability invariant. -/
theorem cubicCwndEvent_inv (mss now : Nat) (sock : SocketState) (st : CubicState)
    (hm1 : 1 ≤ mss) (hm2 : mss ≤ 65535) (hinv : CubicInv mss (sock, st))
    (ev : CongestionEvent) :
    CubicInv mss (cubicCwndEvent sock st ev now) := by
  obtain ⟨scw, sss, smss, stst, srtt, svar, srto, sce⟩ := sock
  obtain ⟨css, ccw, cmc, clm, clc, cfc, ctf, ctc, clt, cac, ccr, cdm, che, cha, chmn, chmx, cep⟩ := st
  obtain ⟨hmss, hc1, hc2, hmc⟩ := hinv
  dsimp only at hmss hc1 hc2 hmc
  subst hmss hmc
  cases ev with
  | PacketLoss =>
    simp only [cubicCwndEvent, cubicGetSsThresh, ite_true, ite_false]
    rw [if_neg (show ¬(CongestionEvent.PacketLoss = CongestionEvent.Timeout) by decide)]
    split_ifs <;> refine ⟨rfl, ?_, ?_, rfl⟩ <;> (simp only [w32, u32]; omega)
  | Timeout =>
    simp only [cubicCwndEvent, cubicGetSsThresh, ite_true, ite_false]
    split_ifs <;> refine ⟨rfl, ?_, ?_, rfl⟩ <;>
      (simp only [cubicReset, w32, u32]; omega)
  | ECN =>
    simp only [cubicCwndEvent, cubicGetSsThresh]
    split_ifs <;> refine ⟨rfl, ?_, ?_, rfl⟩ <;> (simp only [w32, u32]; omega)
  | FastRecovery => exact ⟨rfl, hc1, hc2, rfl⟩
  | NoEvent => exact ⟨rfl, hc1, hc2, rfl⟩

/-- After any window-reducing event (`PacketLoss`, `Timeout`, `ECN`), the
CUBIC slow-start threshold on the socket is at least two MSS. -/
theorem cubicCwndEvent_ssthresh_ge (mss now : Nat) (sock : SocketState) (st : CubicState)
    (hm2 : mss ≤ 65535) (hmss : sock.mss = mss) (ev : CongestionEvent)
    (hev : ev = CongestionEvent.PacketLoss ∨ ev = CongestionEvent.Timeout ∨
           ev = CongestionEvent.ECN) :
    2 * mss ≤ (cubicCwndEvent sock st ev now).1.ssthresh := by
  obtain ⟨scw, sss, smss, stst, srtt, svar, srto, sce⟩ := sock
  dsimp only at hmss
  subst hmss
  rcases hev with rfl | rfl | rfl
  · simp only [cubicCwndEvent, cubicGetSsThresh, ite_true, ite_false]
    rw [if_neg (show ¬(CongestionEvent.PacketLoss = CongestionEvent.Timeout) by decide)]
    split_ifs <;> exact le_trans (by simp only [w32, u32]; omega) (le_max_right _ _)
  · simp only [cubicCwndEvent, cubicGetSsThresh, cubicReset, ite_true, ite_false]
    exact le_trans (by simp only [w32, u32]; omega) (le_max_right _ _)
  · simp only [cubicCwndEvent, cubicGetSsThresh]
    exact le_trans (by simp only [w32, u32]; omega) (le_max_right _ _)

/-- Single-event dispatch preserves the CUBIC invariant. -/
theorem cubicOnEvent_inv (mss : Nat) (hm1 : 1 ≤ mss) (hm2 : mss ≤ 65535)
    (c : SocketState × CubicState) (e : Event) (hinv : CubicInv mss c)
    (he : eventInRange e = true) : CubicInv mss (cubicOnEvent c e) := by
  obtain ⟨sock, st⟩ := c
  cases e with
  | Acked seg rtt now tgt tcpW =>
    have hseg : seg ≤ 32768 := by simpa [eventInRange] using he
    dsimp only [cubicOnEvent]
    split_ifs with hr
    · obtain ⟨hf1, hf2, hf3, hf4⟩ := cubicPktsAcked_fields sock st seg rtt
      obtain ⟨h1, h2, h3, h4⟩ := hinv
      exact cubicIncreaseWindow_inv mss seg _ _ now tgt tcpW hm1 hm2 hseg
        ⟨by rw [hf2]; exact h1, by rw [hf1]; exact h2, by rw [hf1]; exact h3,
         by rw [hf4]; exact h4⟩
    · exact cubicIncreaseWindow_inv mss seg sock st now tgt tcpW hm1 hm2 hseg hinv
  | PacketLoss now => exact cubicCwndEvent_inv mss now sock st hm1 hm2 hinv _
  | Timeout now => exact cubicCwndEvent_inv mss now sock st hm1 hm2 hinv _
  | ECNSignaled now => exact cubicCwndEvent_inv mss now sock st hm1 hm2 hinv _

/-- Folding any in-range event sequence preserves the CUBIC invariant. -/
theorem cubicFoldl_inv (mss : Nat) (hm1 : 1 ≤ mss) (hm2 : mss ≤ 65535)
    (evs : List Event) :
    ∀ c, CubicInv mss c → (∀ e ∈ evs, eventInRange e = true) →
      CubicInv mss (evs.foldl cubicOnEvent c) := by
  induction evs with
  | nil => intro c hc _; exact hc
  | cons e es ih =>
    intro c hc hall
    simp only [List.foldl_cons]
    exact ih _ (cubicOnEvent_inv mss hm1 hm2 c e hc (hall e (by simp)))
      (fun e' he' => hall e' (by simp [he']))

/-- The CUBIC invariant holds in every state reachable from an initialized
connection. -/
theorem cubicRun_inv (mss c0 : Nat) (hm1 : 1 ≤ mss) (hm2 : mss ≤ 65535)
    (hc1 : mss ≤ c0) (hc2 : c0 ≤ 2147483648) (evs : List Event)
    (hevs : ∀ e ∈ evs, eventInRange e = true) :
    CubicInv mss (cubicRun mss c0 evs) := by
  exact cubicFoldl_inv mss hm1 hm2 evs _ ⟨rfl, hc1, hc2, rfl⟩ hevs

/-- Claim C1 (amended): for the BIC and CUBIC strategies, for every
sequence of dispatched events (Acked, PacketLoss, Timeout, ECN) applied to
a connection initialized with `1 ≤ mss ≤ 65535` and an initial window
between one MSS and 2^31 bytes, where every Acked burst has at most 2^15
segments (so the 32-bit window arithmetic cannot wrap), the connection
satisfies `cwnd ≥ MSS` after every event, and every window-reducing event
(PacketLoss, Timeout, ECN) leaves `ssthresh ≥ 2*MSS`.  The Vegas
congestion-avoidance step, by contrast, can take `cwnd` below one MSS. -/
theorem bic_cubic_window_invariants (mss c0 now : Nat) (evs : List Event)
    (hm1 : 1 ≤ mss) (hm2 : mss ≤ 65535) (hc1 : mss ≤ c0) (hc2 : c0 ≤ 2147483648)
    (hevs : ∀ e ∈ evs, eventInRange e = true) :
    mss ≤ (bicRun mss c0 evs).1.cwnd ∧
    mss ≤ (cubicRun mss c0 evs).1.cwnd ∧
    2 * mss ≤ (bicOnEvent (bicRun mss c0 evs) (Event.PacketLoss now)).1.ssthresh ∧
    2 * mss ≤ (bicOnEvent (bicRun mss c0 evs) (Event.Timeout now)).1.ssthresh ∧
    2 * mss ≤ (bicOnEvent (bicRun mss c0 evs) (Event.ECNSignaled now)).1.ssthresh ∧
    2 * mss ≤ (cubicOnEvent (cubicRun mss c0 evs) (Event.PacketLoss now)).1.ssthresh ∧
    2 * mss ≤ (cubicOnEvent (cubicRun mss c0 evs) (Event.Timeout now)).1.ssthresh ∧
    2 * mss ≤ (cubicOnEvent (cubicRun mss c0 evs) (Event.ECNSignaled now)).1.ssthresh := by
  obtain ⟨hb1, hb2, hb3, hb4, hb5, hb6, hb7⟩ := bicRun_inv mss c0 hm1 hm2 hc1 hc2 evs hevs
  obtain ⟨hq1, hq2, hq3, hq4⟩ := cubicRun_inv mss c0 hm1 hm2 hc1 hc2 evs hevs
  exact ⟨hb2, hq2,
    bicCwndEvent_ssthresh_ge mss now _ _ hm2 hb1 _ (Or.inl rfl),
    bicCwndEvent_ssthresh_ge mss now _ _ hm2 hb1 _ (Or.inr (Or.inl rfl)),
    bicCwndEvent_ssthresh_ge mss now _ _ hm2 hb1 _ (Or.inr (Or.inr rfl)),
    cubicCwndEvent_ssthresh_ge mss now _ _ hm2 hq1 _ (Or.inl rfl),
    cubicCwndEvent_ssthresh_ge mss now _ _ hm2 hq1 _ (Or.inr (Or.inl rfl)),
    cubicCwndEvent_ssthresh_ge mss now _ _ hm2 hq1 _ (Or.inr (Or.inr rfl))⟩

/-- Witness for `bic_cubic_window_invariants`: a concrete five-event run
at `MSS = 1460`, initial window 14600 bytes. -/
theorem bic_cubic_window_invariants_witness :
    ([Event.Acked 10 100 1 0 0, Event.PacketLoss 2, Event.Acked 3 90 3 20000 15000,
      Event.Timeout 4, Event.ECNSignaled 5].all eventInRange) = true ∧
    1460 ≤ (bicRun 1460 14600
      [Event.Acked 10 100 1 0 0, Event.PacketLoss 2, Event.Acked 3 90 3 20000 15000,
       Event.Timeout 4, Event.ECNSignaled 5]).1.cwnd ∧
    1460 ≤ (cubicRun 1460 14600
      [Event.Acked 10 100 1 0 0, Event.PacketLoss 2, Event.Acked 3 90 3 20000 15000,
       Event.Timeout 4, Event.ECNSignaled 5]).1.cwnd ∧
    2 * 1460 ≤ (bicOnEvent (bicRun 1460 14600
      [Event.Acked 10 100 1 0 0, Event.PacketLoss 2, Event.Acked 3 90 3 20000 15000,
       Event.Timeout 4, Event.ECNSignaled 5]) (Event.PacketLoss 9)).1.ssthresh :=
  ⟨by decide,
   (bic_cubic_window_invariants 1460 14600 9
      [Event.Acked 10 100 1 0 0, Event.PacketLoss 2, Event.Acked 3 90 3 20000 15000,
       Event.Timeout 4, Event.ECNSignaled 5]
      (by decide) (by decide) (by decide) (by decide) (by decide)).1,
   (bic_cubic_window_invariants 1460 14600 9
      [Event.Acked 10 100 1 0 0, Event.PacketLoss 2, Event.Acked 3 90 3 20000 15000,
       Event.Timeout 4, Event.ECNSignaled 5]
      (by decide) (by decide) (by decide) (by decide) (by decide)).2.1,
   (bic_cubic_window_invariants 1460 14600 9
      [Event.Acked 10 100 1 0 0, Event.PacketLoss 2, Event.Acked 3 90 3 20000 15000,
       Event.Timeout 4, Event.ECNSignaled 5]
      (by decide) (by decide) (by decide) (by decide) (by decide)).2.2.1⟩

end CongCtrl
